import Mathlib

/-!
Verification of the multi-source health-report extraction pipeline
(parsers package: completeness scoring, data merging, image resize policy,
risk-threshold tables, OCR text normalization, test-date extraction,
LLM-fallback retry logic, single-file and batch parse orchestration).

Python dictionaries whose values are strings, numbers, None or lists are
modelled as association lists of PyVal; machine floats are modelled by
exact rationals; fallible code returns Except.
-/

/-- Model of the Python values stored in the extraction dictionaries.
Truthiness follows Python: None, empty string, zero and empty list are falsy. -/
inductive PyVal where
  | vNone : PyVal
  | vStr (s : String) : PyVal
  | vInt (n : Int) : PyVal
  | vFloat (q : Rat) : PyVal
  | vList (len : Nat) : PyVal
deriving DecidableEq

/-- Python truthiness of a PyVal. -/
def PyVal.truthy : PyVal → Bool
  | .vNone => false
  | .vStr s => s ≠ ""
  | .vInt n => n ≠ 0
  | .vFloat q => q ≠ 0
  | .vList len => len ≠ 0

/-- A Python dict modelled as an association list (keys unique by invariant). -/
abbrev Dict : Type := List (String × PyVal)

/-- Reading d.get(k) / the membership test: first entry with the key. -/
def dictGet : Dict → String → Option PyVal
  | [], _ => Option.none
  | (k0, v0) :: rest, k => if k0 = k then some v0 else dictGet rest k

/-- Model of the Python assignment d[k] = v: update the first occurrence in
place, otherwise append at the end (insertion order of Python dicts). -/
def dictSet : Dict → String → PyVal → Dict
  | [], k, v => [(k, v)]
  | (k0, v0) :: rest, k, v =>
      if k0 = k then (k0, v) :: rest else (k0, v0) :: dictSet rest k v

/-- The seven required health metric fields (REQUIRED_FIELDS in
health_report_parser.py, a Python set; counting is order independent). -/
def REQUIRED_FIELDS : List String :=
  ["blood_pressure", "cholesterol", "glucose", "bmi",
   "heart_rate", "temperature", "oxygen_saturation"]

/-- Count of required fields f with f in data and data[f] is not None,
as in the sum comprehension of _check_completeness. -/
def presentFields (data : Dict) : Nat :=
  REQUIRED_FIELDS.countP fun f =>
    match dictGet data f with
    | some v => v ≠ PyVal.vNone
    | Option.none => false

/-- Embedding of HealthReportParser._check_completeness: returns 0.0 on a
falsy (empty) dict, otherwise the number of present (non-None) required
fields divided by the number of required fields. -/
def check_completeness (data : Dict) : Rat :=
  if data = ([] : Dict) then 0
  else (presentFields data : Rat) / (REQUIRED_FIELDS.length : Rat)

/-- The copy condition of _merge_data: key not in merged or not merged[key]. -/
def shouldCopy (merged : Dict) (k : String) : Bool :=
  match dictGet merged k with
  | Option.none => true
  | some v => !v.truthy

/-- Embedding of HealthReportParser._merge_data: start from a copy of data1,
then for each key/value of data2 copy it in when the key is absent from the
accumulator or its current value is falsy. -/
def merge_data (data1 data2 : Dict) : Dict :=
  data2.foldl
    (fun merged kv =>
      if shouldCopy merged kv.1 then dictSet merged kv.1 kv.2 else merged)
    data1

/-!
Heap model for the frame effect of _merge_data (C10): Python dictionaries
are references into a store; the copy on entry allocates a fresh cell and
every write of the loop targets only that cell.
-/

/-- A store of dictionary objects; a reference is an index. -/
abbrev Heap : Type := List Dict

/-- One iteration of the merge loop acting on the store: read the merged
object, test the copy condition, and write back only the merged object. -/
def mergeLoopStep (r3 : Nat) (h : Heap) (kv : String × PyVal) : Heap :=
  let m := h.getD r3 []
  if shouldCopy m kv.1 then h.set r3 (dictSet m kv.1 kv.2) else h

/-- Embedding of _merge_data at the store level: merged = data1.copy()
allocates a fresh cell, the loop iterates over the items of data2 writing
only the fresh cell, and the reference of the fresh cell is returned. -/
def merge_data_heap (heap : Heap) (r1 r2 : Nat) : Heap × Nat :=
  let r3 := heap.length
  let heap1 : Heap := heap ++ [heap.getD r1 []]
  let items := heap.getD r2 []
  (items.foldl (mergeLoopStep r3) heap1, r3)

/-!
Embedding of SimpleMobilePreprocessor._resize_for_ocr. The Python code
computes a float scale and truncates width*scale and height*scale with int;
the scales 1000/min_edge and 2000/max_edge are modelled exactly, so the
truncation is natural-number division (the spec allows rounding slack).
-/

/-- Interpolation mode chosen by the resize step. -/
inductive Interp where
  | cubic : Interp
  | area : Interp
deriving DecidableEq

/-- Embedding of _resize_for_ocr on the image dimensions: upscale by
1000/min_edge with cubic interpolation when the short edge is below 1000,
else downscale by 2000/max_edge with area interpolation when the long edge
exceeds 2000, else return the image unchanged. -/
def resize_for_ocr (height width : Nat) : Nat × Nat × Option Interp :=
  let min_edge := min height width
  let max_edge := max height width
  if min_edge < 1000 then
    (height * 1000 / min_edge, width * 1000 / min_edge, some Interp.cubic)
  else if max_edge > 2000 then
    (height * 2000 / max_edge, width * 2000 / max_edge, some Interp.area)
  else (height, width, Option.none)

/-!
Embedding of the per-metric risk assessment functions of
paddle_ocr_parser.py (values modelled as exact rationals).
-/

/-- Total cholesterol risk bands. -/
def assess_cholesterol_risk (value : Rat) : String :=
  if value < 200 then "normal"
  else if value < 240 then "borderline"
  else "high"

/-- LDL cholesterol risk bands. -/
def assess_ldl_risk (value : Rat) : String :=
  if value < 100 then "normal"
  else if value < 130 then "borderline"
  else if value < 160 then "borderline_high"
  else "high"

/-- HDL cholesterol risk bands (higher is better). -/
def assess_hdl_risk (value : Rat) : String :=
  if value ≥ 60 then "normal"
  else if value ≥ 40 then "borderline"
  else "high"

/-- Triglyceride risk bands. -/
def assess_triglyceride_risk (value : Rat) : String :=
  if value < 150 then "normal"
  else if value < 200 then "borderline"
  else "high"

/-- Systolic blood pressure risk bands. -/
def assess_systolic_bp_risk (value : Rat) : String :=
  if value < 120 then "normal"
  else if value < 130 then "elevated"
  else if value < 140 then "stage1"
  else "high"

/-- Diastolic blood pressure risk bands. -/
def assess_diastolic_bp_risk (value : Rat) : String :=
  if value < 80 then "normal"
  else if value < 90 then "stage1"
  else "high"

/-- Fasting glucose risk bands. -/
def assess_fasting_glucose_risk (value : Rat) : String :=
  if value < 100 then "normal"
  else if value < 126 then "borderline"
  else "high"

/-- HbA1c risk bands. -/
def assess_hba1c_risk (value : Rat) : String :=
  if value < 57/10 then "normal"
  else if value < 65/10 then "borderline"
  else "high"

/-- Waist circumference risk bands (Asian reference). -/
def assess_waist_risk (value : Rat) : String :=
  if value < 80 then "normal"
  else if value < 90 then "borderline"
  else "high"

/-!
Embedding of PaddleOCRHealthReportParser._normalize_text: a character
translation table (str.translate with str.maketrans), collapsing of
whitespace runs (re.sub of one or more whitespace characters by a single
space), then two str.replace calls.
-/

/-- The maketrans table of _normalize_text, pairing each character of the
first string of the table with the character of the second at the same
position. -/
def translateTable : List (Char × Char) :=
  [('０', '0'), ('１', '1'), ('２', '2'), ('３', '3'), ('４', '4'),
   ('５', '5'), ('６', '6'), ('７', '7'), ('８', '8'), ('９', '9'),
   ('：', ':'), ('；', ';'), ('，', ','), ('。', '.'), ('！', '!'),
   ('？', '?'), ('（', '('), ('）', ')'), ('【', '['), ('】', ']'),
   ('「', '「'), ('」', '」')]

/-- Character translation of str.translate: look the character up in the
table, characters not in the table are unchanged. -/
def translateChar (c : Char) : Char :=
  ((translateTable.find? fun p => p.1 = c).map Prod.snd).getD c

/-- Code points the Python regex class of whitespace characters matches in
Unicode string mode. -/
def pythonWhitespaceCodes : List Nat :=
  [9, 10, 11, 12, 13, 28, 29, 30, 31, 32, 133, 160, 5760,
   8192, 8193, 8194, 8195, 8196, 8197, 8198, 8199, 8200, 8201, 8202,
   8232, 8233, 8239, 8287, 12288]

/-- Whether a character is whitespace for the Python regex engine. -/
def isPyWhitespace (c : Char) : Bool :=
  pythonWhitespaceCodes.contains c.toNat

/-- Replacement of every maximal whitespace run by a single space; the flag
records whether the previous character was whitespace. -/
def collapseAux : Bool → List Char → List Char
  | _, [] => []
  | prevWS, c :: rest =>
      if isPyWhitespace c then
        (if prevWS then [] else [' ']) ++ collapseAux true rest
      else c :: collapseAux false rest

/-- Embedding of re.sub of one or more whitespace characters by one space. -/
def collapseWS (cs : List Char) : List Char :=
  collapseAux false cs

/-- Embedding of Python str.replace for a single-character needle. -/
def replaceChar : List Char → Char → List Char → List Char
  | [], _, _ => []
  | c :: rest, k, t =>
      (if c = k then t else [c]) ++ replaceChar rest k t

/-- Embedding of _normalize_text on the character list: translate, collapse
whitespace, then replace the full-width colon by a colon and remove the
Chinese full stop (both replace steps come after the translation, as in the
source). -/
def normalizeChars (cs : List Char) : List Char :=
  replaceChar (replaceChar (collapseWS (cs.map translateChar)) '：' [':'])
    '。' []

/-- Embedding of _normalize_text on strings. -/
def normalize_text (s : String) : String :=
  String.mk (normalizeChars s.data)

/-!
Embedding of PaddleOCRHealthReportParser._extract_test_date. Each regex of
the date_patterns list is embedded as a matcher on a character position plus
a leftmost search; the greedy bounded quantifiers of these patterns never
need cross-group backtracking because the digit class is disjoint from
every following literal. Group access groups[2] on the two-group English
pattern raises an IndexError, modelled with Except.
-/

/-- Lowercase ASCII letter, the character class a to z. -/
def isLowerAlpha (c : Char) : Bool := 'a' ≤ c && c ≤ 'z'

/-- Take exactly n decimal digits from the front. -/
def grabDigits : Nat → List Char → Option (List Char × List Char)
  | 0, cs => some ([], cs)
  | n + 1, c :: cs =>
      if c.isDigit then (grabDigits n cs).map fun p => (c :: p.1, p.2)
      else Option.none
  | _ + 1, [] => Option.none

/-- Match one character satisfying the predicate. -/
def charP (p : Char → Bool) : List Char → Option (List Char)
  | c :: cs => if p c then some cs else Option.none
  | [] => Option.none

/-- Greedy bounded digit group followed by a one-character class: try the
digit counts in the given (descending) order. -/
def numThenCharP : List Nat → (Char → Bool) → List Char → Option (List Char × List Char)
  | [], _, _ => Option.none
  | n :: ns, p, cs =>
      match grabDigits n cs with
      | some (ds, rest) =>
          match charP p rest with
          | some rest2 => some (ds, rest2)
          | Option.none => numThenCharP ns p cs
      | Option.none => numThenCharP ns p cs

/-- Greedy final digit group of one or two digits (no following literal). -/
def grabUpToTwo (cs : List Char) : Option (List Char × List Char) :=
  match grabDigits 2 cs with
  | some p => some p
  | Option.none => grabDigits 1 cs

/-- Matcher at one position for the ROC pattern: two to three digits,
the year character, one to two digits, the month character, one to two
digits, the day character. -/
def matchRocDateAt (cs : List Char) : Option (List String) := do
  let (y, r1) ← numThenCharP [3, 2] (fun c => c = '年') cs
  let (m, r2) ← numThenCharP [2, 1] (fun c => c = '月') r1
  let (d, _) ← numThenCharP [2, 1] (fun c => c = '日') r2
  pure [String.mk y, String.mk m, String.mk d]

/-- Matcher at one position for the Gregorian pattern with CJK date
characters: the literal digits 202, one digit, then the year character and
month and day groups. -/
def matchGregorianYmdAt (cs : List Char) : Option (List String) :=
  match cs with
  | '2' :: '0' :: '2' :: d :: '年' :: rest =>
      if d.isDigit then do
        let (m, r2) ← numThenCharP [2, 1] (fun c => c = '月') rest
        let (dd, _) ← numThenCharP [2, 1] (fun c => c = '日') r2
        pure [String.mk ['2', '0', '2', d], String.mk m, String.mk dd]
      else Option.none
  | _ => Option.none

/-- A slash or dash date separator. -/
def isDateSep (c : Char) : Bool := c = '/' || c = '-'

/-- Matcher at one position for the slash or dash Gregorian pattern. -/
def matchSlashDateAt (cs : List Char) : Option (List String) :=
  match cs with
  | '2' :: '0' :: '2' :: d :: rest =>
      if d.isDigit then do
        let r1 ← charP isDateSep rest
        let (m, r2) ← numThenCharP [2, 1] isDateSep r1
        let (dd, _) ← grabUpToTwo r2
        pure [String.mk ['2', '0', '2', d], String.mk m, String.mk dd]
      else Option.none
  | _ => Option.none

/-- The abbreviated English month alternation, in pattern order. -/
def monthNames : List String :=
  ["Jan", "Feb", "Mar", "Apr", "May", "Jun",
   "Jul", "Aug", "Sep", "Oct", "Nov", "Dec"]

/-- Strip the first matching month name prefix. -/
def stripMonth : List String → List Char → Option (List Char)
  | [], _ => Option.none
  | m :: ms, cs =>
      if m.data.isPrefixOf cs then some (cs.drop m.data.length)
      else stripMonth ms cs

/-- Match one or more whitespace characters greedily. -/
def wsPlus : List Char → Option (List Char)
  | c :: rest =>
      if isPyWhitespace c then some (rest.dropWhile isPyWhitespace)
      else Option.none
  | [] => Option.none

/-- Match the optional comma, one or more whitespace characters, and the
year group 202 followed by one digit; return the year group. -/
def commaWsYear (cs : List Char) : Option (List Char) :=
  let cs1 := match cs with
    | ',' :: r => r
    | r => r
  match wsPlus cs1 with
  | some ('2' :: '0' :: '2' :: d :: _) =>
      if d.isDigit then some ['2', '0', '2', d] else Option.none
  | _ => Option.none

/-- Matcher at one position for the abbreviated English month pattern; note
it produces only two groups (day, year). -/
def matchEnglishDateAt (cs : List Char) : Option (List String) := do
  let r1 ← stripMonth monthNames cs
  let r2 := r1.dropWhile isLowerAlpha
  let r3 ← wsPlus r2
  match grabDigits 2 r3 with
  | some (d2, r4) =>
      match commaWsYear r4 with
      | some y => pure [String.mk d2, String.mk y]
      | Option.none =>
          match grabDigits 1 r3 with
          | some (d1, r4b) =>
              match commaWsYear r4b with
              | some y => pure [String.mk d1, String.mk y]
              | Option.none => Option.none
          | Option.none => Option.none
  | Option.none =>
      match grabDigits 1 r3 with
      | some (d1, r4b) =>
          match commaWsYear r4b with
          | some y => pure [String.mk d1, String.mk y]
          | Option.none => Option.none
      | Option.none => Option.none

/-- Leftmost search of a position matcher, as re.search. -/
def searchPattern (f : List Char → Option (List String)) :
    List Char → Option (List String)
  | [] => f []
  | c :: rest =>
      match f (c :: rest) with
      | some g => some g
      | Option.none => searchPattern f rest

/-- The date_patterns list of _extract_test_date, in source order. -/
def date_patterns : List (List Char → Option (List String)) :=
  [matchRocDateAt, matchGregorianYmdAt, matchSlashDateAt, matchEnglishDateAt]

/-- Numeric value of a digit string, as Python int on the group. -/
def digitsToNat (ds : List Char) : Nat :=
  ds.foldl (fun n c => n * 10 + (c.toNat - '0'.toNat)) 0

/-- Gregorian leap year rule used by datetime. -/
def isLeapYear (y : Nat) : Bool :=
  y % 4 = 0 && (y % 100 ≠ 0 || y % 400 = 0)

/-- Number of days of a month, as validated by the datetime constructor. -/
def daysInMonth (y m : Nat) : Nat :=
  if m = 2 then (if isLeapYear y then 29 else 28)
  else if m = 4 || m = 6 || m = 9 || m = 11 then 30
  else 31

/-- Validity check of the datetime constructor: year within MINYEAR and
MAXYEAR, month 1 to 12, day within the month. -/
def validDate (y m d : Nat) : Bool :=
  1 ≤ y && y ≤ 9999 && 1 ≤ m && m ≤ 12 && 1 ≤ d && d ≤ daysInMonth y m

/-- Zero-padded two-digit field of strftime. -/
def pad2 (n : Nat) : String :=
  if n < 10 then "0" ++ toString n else toString n

/-- Zero-padded four-digit year field of strftime. -/
def pad4 (n : Nat) : String :=
  if n < 10 then "000" ++ toString n
  else if n < 100 then "00" ++ toString n
  else if n < 1000 then "0" ++ toString n
  else toString n

/-- The strftime format of _extract_test_date: year-month-day. -/
def formatDate (y m d : Nat) : String :=
  pad4 y ++ "-" ++ pad2 m ++ "-" ++ pad2 d

/-- Group access groups[i], which raises IndexError past the end. -/
def groupsGet (groups : List String) (i : Nat) : Except String String :=
  match groups.get? i with
  | some g => Except.ok g
  | Option.none => Except.error "IndexError"

/-- The year, month and day computation of _extract_test_date on the match
groups: a first group of at most three characters whose value is below 200
is an ROC year converted by adding 1911; both branches read the third
group, which does not exist for the English pattern. -/
def pickDate (groups : List String) : Except String (Nat × Nat × Nat) := do
  let g0 ← groupsGet groups 0
  let g1 ← groupsGet groups 1
  let g2 ← groupsGet groups 2
  if g0.length ≤ 3 ∧ digitsToNat g0.data < 200 then
    pure (digitsToNat g0.data + 1911, digitsToNat g1.data, digitsToNat g2.data)
  else
    pure (digitsToNat g0.data, digitsToNat g1.data, digitsToNat g2.data)

/-- The pattern loop of _extract_test_date: first pattern whose match gives
a valid calendar date wins; an invalid date falls through to the next
pattern; a group IndexError propagates; no pattern matching yields none. -/
def runPatterns : List (List Char → Option (List String)) → List Char →
    Except String (Option String)
  | [], _ => Except.ok Option.none
  | p :: ps, text =>
      match searchPattern p text with
      | Option.none => runPatterns ps text
      | some groups =>
          match pickDate groups with
          | Except.error e => Except.error e
          | Except.ok (y, m, d) =>
              if validDate y m d then Except.ok (some (formatDate y m d))
              else runPatterns ps text

/-- Embedding of _extract_test_date: join the text blocks with newlines,
normalize, then run the date patterns in order. -/
def extract_test_date (blocks : List String) : Except String (Option String) :=
  runPatterns date_patterns
    (normalizeChars (String.intercalate "\n" blocks).data)

/-!
Embedding of GeminiStructuredExtractor.extract and extract_with_retry, and
of the fallback stage (steps five and six) of HealthReportParser.parse and
of the aggregation of parse_batch. The underlying LLM interaction is
abstracted as an Except outcome (a raised exception or a returned dict);
everything from the catch-all of extract onward is embedded from the code.
-/

/-- Embedding of the catch-all of GeminiStructuredExtractor.extract: any
exception of the inner extraction is swallowed and an empty dict returned,
so extract never raises. -/
def gemini_extract (inner : Except String Dict) : Dict :=
  match inner with
  | Except.ok d => d
  | Except.error _ => []

/-- Embedding of steps five and six of HealthReportParser.parse given the
OCR data: completeness check, then the fallback branch guarded by the
caller switch and the threshold; the llm argument is the outcome of
awaiting the extractor (an exception would be caught, restoring source ocr
and keeping the OCR data). Returns final data, completeness and source. -/
def parse_fallback_stage (ocr_data : Dict) (use_llm_fallback : Bool)
    (threshold : Rat) (llm : Except String Dict) : Dict × Rat × String :=
  let completeness := check_completeness ocr_data
  if use_llm_fallback = true ∧ completeness < threshold then
    match llm with
    | Except.ok llm_data =>
        let final := merge_data ocr_data llm_data
        (final, check_completeness final, "hybrid")
    | Except.error _ => (ocr_data, completeness, "ocr")
  else (ocr_data, completeness, "ocr")

/-- The retry loop of extract_with_retry: attempt counter, remaining
iterations, and the list of executed backoff sleeps; an attempt returning a
non-empty dict returns immediately; an empty dict just continues; an
exception sleeps two to the attempt seconds unless it was the last attempt.
Returns result, sleeps and number of attempts executed. -/
def retryLoop (att : Nat → Except String Dict) (maxR : Nat) :
    Nat → Nat → List Nat → Dict × List Nat × Nat
  | attempt, 0, sleeps => ([], sleeps, attempt)
  | attempt, rem + 1, sleeps =>
      match att attempt with
      | Except.ok r =>
          if r ≠ [] then (r, sleeps, attempt + 1)
          else retryLoop att maxR (attempt + 1) rem sleeps
      | Except.error _ =>
          if attempt = maxR - 1 then retryLoop att maxR (attempt + 1) rem sleeps
          else retryLoop att maxR (attempt + 1) rem (sleeps ++ [2 ^ attempt])

/-- Embedding of extract_with_retry over the attempt outcomes. -/
def extract_with_retry (att : Nat → Except String Dict) (max_retries : Nat) :
    Dict × List Nat × Nat :=
  retryLoop att max_retries 0 max_retries []

/-- Outcome of a single-file parse as seen by parse_batch: a success
envelope carries its data dict, a failure envelope carries the error and an
empty data dict. -/
inductive ParseOutcome where
  | success (data : Dict) : ParseOutcome
  | failure (error : String) : ParseOutcome

/-- The data field of a parse result envelope. -/
def envData : ParseOutcome → Dict
  | .success d => d
  | .failure _ => []

/-- The merging loop of parse_batch: fold the truthy (non-empty) data
fields through _merge_data in input order, starting from an empty dict. -/
def parse_batch_merge (results : List ParseOutcome) : Dict :=
  results.foldl
    (fun merged r =>
      if envData r ≠ [] then merge_data merged (envData r) else merged)
    []

/-- Embedding of the aggregation of parse_batch: the merged dict and the
overall completeness recomputed on it (the per-file results list is
returned unchanged alongside and is not modelled further). -/
def parse_batch (results : List ParseOutcome) : Dict × Rat :=
  (parse_batch_merge results, check_completeness (parse_batch_merge results))

theorem dictGet_dictSet_self (d : Dict) (k : String) (v : PyVal) :
    dictGet (dictSet d k v) k = some v := by
  induction d with
  | nil => simp [dictSet, dictGet]
  | cons hd tl ih =>
      obtain ⟨k0, v0⟩ := hd
      by_cases h : k0 = k
      · simp [dictSet, dictGet, h]
      · simp [dictSet, dictGet, h, ih]

theorem dictGet_dictSet_ne (d : Dict) (k k' : String) (v : PyVal)
    (h : k ≠ k') : dictGet (dictSet d k v) k' = dictGet d k' := by
  induction d with
  | nil => simp [dictSet, dictGet, h]
  | cons hd tl ih =>
      obtain ⟨k0, v0⟩ := hd
      by_cases h0 : k0 = k
      · subst h0
        simp [dictSet, dictGet, h]
      · by_cases h1 : k0 = k'
        · subst h1
          simp [dictSet, dictGet, h0]
        · simp [dictSet, dictGet, h0, h1, ih]

theorem dictGet_eq_none_of_not_mem (d : Dict) (k : String)
    (h : k ∉ d.map Prod.fst) : dictGet d k = Option.none := by
  induction d with
  | nil => simp [dictGet]
  | cons hd tl ih =>
      obtain ⟨k0, v0⟩ := hd
      simp only [List.map_cons, List.mem_cons] at h
      push_neg at h
      have hne : k0 ≠ k := fun hc => h.1 hc.symm
      simp [dictGet, hne, ih h.2]

/-- Pointwise characterization of merge: the merged value at a key is the
secondary value (falling back to the primary one) when the primary entry is
absent or falsy, otherwise the primary value. -/
theorem merge_data_get (d2 : Dict) (d1 : Dict) (k : String)
    (h2 : (d2.map Prod.fst).Nodup) :
    dictGet (merge_data d1 d2) k =
      if shouldCopy d1 k then (dictGet d2 k).or (dictGet d1 k)
      else dictGet d1 k := by
  induction d2 generalizing d1 with
  | nil =>
      simp only [merge_data, List.foldl_nil, dictGet]
      by_cases hc : shouldCopy d1 k <;> simp [hc]
  | cons hd tl ih =>
      obtain ⟨k0, v0⟩ := hd
      simp only [List.map_cons, List.nodup_cons] at h2
      have step : merge_data d1 ((k0, v0) :: tl) =
          merge_data (if shouldCopy d1 k0 then dictSet d1 k0 v0 else d1) tl := rfl
      rw [step]
      by_cases hk : k0 = k
      · subst hk
        have htl : dictGet tl k0 = Option.none :=
          dictGet_eq_none_of_not_mem tl k0 h2.1
        by_cases hc : shouldCopy d1 k0
        · have hset : dictGet (dictSet d1 k0 v0) k0 = some v0 :=
            dictGet_dictSet_self d1 k0 v0
          have hsc : shouldCopy (dictSet d1 k0 v0) k0 =
              !(PyVal.truthy v0) := by
            simp [shouldCopy, hset]
          rw [if_pos hc, ih _ h2.2, htl, hsc, hset]
          simp only [dictGet, if_pos rfl, hc, if_true, Option.or_some]
          cases hv : PyVal.truthy v0 <;> simp
        · rw [if_neg hc, ih _ h2.2]
          rcases hget : dictGet d1 k0 with _ | v
          · exact absurd (by simp [shouldCopy, hget]) hc
          · simp only [dictGet, if_pos rfl]
            simp [hc, hget]
      · have hcons : dictGet ((k0, v0) :: tl) k = dictGet tl k := by
          simp [dictGet, hk]
        rw [hcons]
        by_cases hc : shouldCopy d1 k0
        · rw [if_pos hc, ih _ h2.2]
          have hget : dictGet (dictSet d1 k0 v0) k = dictGet d1 k :=
            dictGet_dictSet_ne d1 k0 k v0 hk
          have hsc : shouldCopy (dictSet d1 k0 v0) k = shouldCopy d1 k := by
            simp [shouldCopy, hget]
          rw [hget, hsc]
        · rw [if_neg hc, ih _ h2.2]

/-- C2: merge key set is the union of the input key sets; truthy primary
values always win; a key absent or falsy in the primary and present in the
secondary takes the secondary value; keys in neither are absent. -/
theorem merge_data_spec (d1 d2 : Dict)
    (h2 : (d2.map Prod.fst).Nodup) :
    (∀ k, (dictGet (merge_data d1 d2) k).isSome ↔
        ((dictGet d1 k).isSome ∨ (dictGet d2 k).isSome))
    ∧ (∀ k v, dictGet d1 k = some v → PyVal.truthy v = true →
        dictGet (merge_data d1 d2) k = some v)
    ∧ (∀ k v, shouldCopy d1 k = true → dictGet d2 k = some v →
        dictGet (merge_data d1 d2) k = some v)
    ∧ (∀ k, dictGet d1 k = Option.none → dictGet d2 k = Option.none →
        dictGet (merge_data d1 d2) k = Option.none) := by
  refine ⟨?_, ?_, ?_, ?_⟩
  · intro k
    rw [merge_data_get d2 d1 k h2]
    by_cases hc : shouldCopy d1 k
    · simp only [hc, if_true]
      rcases hget2 : dictGet d2 k with _ | w <;>
        rcases hget1 : dictGet d1 k with _ | v <;> simp [Option.or]
    · simp only [hc, if_false]
      have : ∃ v, dictGet d1 k = some v := by
        rcases hget : dictGet d1 k with _ | v
        · exfalso; apply hc; simp [shouldCopy, hget]
        · exact ⟨v, rfl⟩
      obtain ⟨v, hv⟩ := this
      simp [hv]
  · intro k v hget htr
    rw [merge_data_get d2 d1 k h2]
    have : shouldCopy d1 k = false := by
      simp [shouldCopy, hget, htr]
    simp [this, hget]
  · intro k v hc hget2
    rw [merge_data_get d2 d1 k h2]
    simp [hc, hget2, Option.or]
  · intro k h1 h2'
    rw [merge_data_get d2 d1 k h2]
    have : shouldCopy d1 k = true := by simp [shouldCopy, h1]
    simp [this, h1, h2', Option.or]

/-- Witness for merge_data_spec at concrete dictionaries: the falsy primary
entry for cholesterol is overwritten by the secondary value. -/
theorem merge_data_spec_witness :
    (([("cholesterol", PyVal.vStr "200"), ("glucose", PyVal.vStr "100")] :
        Dict).map Prod.fst).Nodup
    ∧ dictGet
        (merge_data
          [("blood_pressure", PyVal.vStr "120/80"),
           ("cholesterol", PyVal.vStr "")]
          [("cholesterol", PyVal.vStr "200"), ("glucose", PyVal.vStr "100")])
        "cholesterol" = some (PyVal.vStr "200") := by
  refine ⟨by decide, ?_⟩
  exact (merge_data_spec
    [("blood_pressure", PyVal.vStr "120/80"),
     ("cholesterol", PyVal.vStr "")]
    [("cholesterol", PyVal.vStr "200"), ("glucose", PyVal.vStr "100")]
    (by decide)).2.2.1 "cholesterol" (PyVal.vStr "200")
    (by decide) (by decide)

/-- C1 (code bug): on the empty-string test data from the repository unit
test test_empty_field_values, _check_completeness returns 3/7 because the
code only excludes None, counting the empty string for cholesterol; the
test, the inline comment and the spec all require 2/7. -/
theorem check_completeness_counts_empty_string :
    check_completeness
      [("blood_pressure", PyVal.vStr "120/80"),
       ("cholesterol", PyVal.vStr ""),
       ("glucose", PyVal.vNone),
       ("bmi", PyVal.vStr "22.5")] = 3 / 7
    ∧ ((3 : Rat) / 7 ≠ 2 / 7) := by
  constructor
  · have hcount : presentFields
        [("blood_pressure", PyVal.vStr "120/80"),
         ("cholesterol", PyVal.vStr ""),
         ("glucose", PyVal.vNone),
         ("bmi", PyVal.vStr "22.5")] = 3 := by decide
    rw [check_completeness, if_neg (by decide), hcount]
    norm_num [REQUIRED_FIELDS]
  · norm_num

theorem mergeLoop_fold (items : List (String × PyVal)) (h0 : Heap) (r3 : Nat)
    (hr3 : r3 < h0.length) :
    (items.foldl (mergeLoopStep r3) h0).length = h0.length
    ∧ (∀ r, r ≠ r3 →
        (items.foldl (mergeLoopStep r3) h0).getD r ([] : Dict) =
          h0.getD r ([] : Dict))
    ∧ (items.foldl (mergeLoopStep r3) h0).getD r3 ([] : Dict) =
        merge_data (h0.getD r3 ([] : Dict)) items := by
  induction items generalizing h0 with
  | nil => exact ⟨rfl, fun r _ => rfl, rfl⟩
  | cons kv tl ih =>
      have hstep : ∀ h : Heap, tl.foldl (mergeLoopStep r3) (mergeLoopStep r3 h kv) =
          (kv :: tl).foldl (mergeLoopStep r3) h := fun h => rfl
      rw [← hstep h0]
      have hlen : (mergeLoopStep r3 h0 kv).length = h0.length := by
        simp only [mergeLoopStep]
        split <;> simp
      have hr3' : r3 < (mergeLoopStep r3 h0 kv).length := by rw [hlen]; exact hr3
      obtain ⟨ihlen, ihother, ihself⟩ := ih (mergeLoopStep r3 h0 kv) hr3'
      refine ⟨ihlen.trans hlen, ?_, ?_⟩
      · intro r hr
        rw [ihother r hr]
        simp only [mergeLoopStep]
        split <;>
          simp [List.getD, List.getElem?_set_ne (fun h => hr h.symm)]
      · rw [ihself]
        have hget : (mergeLoopStep r3 h0 kv).getD r3 ([] : Dict) =
            if shouldCopy (h0.getD r3 []) kv.1
            then dictSet (h0.getD r3 []) kv.1 kv.2
            else h0.getD r3 ([] : Dict) := by
          simp only [mergeLoopStep, List.getD]
          split <;>
            simp [List.getElem?_set_self hr3]
        rw [hget]
        have hmerge : merge_data (h0.getD r3 ([] : Dict)) (kv :: tl) =
            merge_data
              (if shouldCopy (h0.getD r3 []) kv.1
               then dictSet (h0.getD r3 []) kv.1 kv.2
               else h0.getD r3 ([] : Dict)) tl := rfl
        rw [hmerge]

/-- C10: _merge_data mutates neither argument object: after the call the
store contents at both argument references are unchanged, and the fresh
result object holds exactly the pure merge of the two inputs. -/
theorem merge_data_no_mutation (heap : Heap) (r1 r2 : Nat)
    (h1 : r1 < heap.length) (h2 : r2 < heap.length) :
    (merge_data_heap heap r1 r2).1.getD r1 ([] : Dict) = heap.getD r1 ([] : Dict)
    ∧ (merge_data_heap heap r1 r2).1.getD r2 ([] : Dict) = heap.getD r2 ([] : Dict)
    ∧ (merge_data_heap heap r1 r2).1.getD (merge_data_heap heap r1 r2).2
        ([] : Dict) =
      merge_data (heap.getD r1 ([] : Dict)) (heap.getD r2 ([] : Dict)) := by
  have hr3 : heap.length < (heap ++ [heap.getD r1 ([] : Dict)]).length := by
    simp
  obtain ⟨hlen, hother, hself⟩ :=
    mergeLoop_fold (heap.getD r2 ([] : Dict))
      (heap ++ [heap.getD r1 ([] : Dict)]) heap.length hr3
  have happ : ∀ r, r < heap.length →
      (heap ++ [heap.getD r1 ([] : Dict)]).getD r ([] : Dict) =
        heap.getD r ([] : Dict) := by
    intro r hr
    simp [List.getD, List.getElem?_append_left hr]
  have hfreshget : (heap ++ [heap.getD r1 ([] : Dict)]).getD heap.length
      ([] : Dict) = heap.getD r1 ([] : Dict) := by
    simp [List.getD]
  refine ⟨?_, ?_, ?_⟩
  · rw [show (merge_data_heap heap r1 r2).1 =
        (heap.getD r2 ([] : Dict)).foldl (mergeLoopStep heap.length)
          (heap ++ [heap.getD r1 ([] : Dict)]) from rfl]
    rw [hother r1 (Nat.ne_of_lt h1), happ r1 h1]
  · rw [show (merge_data_heap heap r1 r2).1 =
        (heap.getD r2 ([] : Dict)).foldl (mergeLoopStep heap.length)
          (heap ++ [heap.getD r1 ([] : Dict)]) from rfl]
    rw [hother r2 (Nat.ne_of_lt h2), happ r2 h2]
  · rw [show (merge_data_heap heap r1 r2).2 = heap.length from rfl]
    rw [show (merge_data_heap heap r1 r2).1 =
        (heap.getD r2 ([] : Dict)).foldl (mergeLoopStep heap.length)
          (heap ++ [heap.getD r1 ([] : Dict)]) from rfl]
    rw [hself, hfreshget]

/-- Witness for merge_data_no_mutation on a two-object store. -/
theorem merge_data_no_mutation_witness :
    (0 : Nat) < ([[("a", PyVal.vStr "")], [("a", PyVal.vStr "1")]] : Heap).length
    ∧ (1 : Nat) < ([[("a", PyVal.vStr "")], [("a", PyVal.vStr "1")]] : Heap).length
    ∧ (merge_data_heap [[("a", PyVal.vStr "")], [("a", PyVal.vStr "1")]] 0 1).1.getD 0
        ([] : Dict) = [("a", PyVal.vStr "")] := by
  refine ⟨by decide, by decide, ?_⟩
  have h := (merge_data_no_mutation
    [[("a", PyVal.vStr "")], [("a", PyVal.vStr "1")]] 0 1
    (by decide) (by decide)).1
  rw [h]
  rfl

/-- C3: the three branches of the resize policy, checked in order. An image
with a short edge below 1000 is upscaled with cubic interpolation to a short
edge of at least 1000, even when its long edge also exceeds 2000; otherwise
an image with a long edge above 2000 is downscaled with area interpolation
to a long edge of at most 2000; otherwise the dimensions are unchanged. -/
theorem resize_for_ocr_spec (h w : Nat) (hh : 1 ≤ h) (hw : 1 ≤ w) :
    (min h w < 1000 →
      resize_for_ocr h w =
        (h * 1000 / min h w, w * 1000 / min h w, some Interp.cubic)
      ∧ 1000 ≤ min (h * 1000 / min h w) (w * 1000 / min h w))
    ∧ (¬ min h w < 1000 → 2000 < max h w →
      resize_for_ocr h w =
        (h * 2000 / max h w, w * 2000 / max h w, some Interp.area)
      ∧ max (h * 2000 / max h w) (w * 2000 / max h w) ≤ 2000)
    ∧ (¬ min h w < 1000 → ¬ 2000 < max h w →
      resize_for_ocr h w = (h, w, Option.none)) := by
  have hmin : 1 ≤ min h w := le_min hh hw
  refine ⟨?_, ?_, ?_⟩
  · intro hsmall
    refine ⟨by simp [resize_for_ocr, hsmall], ?_⟩
    have hbound : ∀ e : Nat, min h w ≤ e → 1000 ≤ e * 1000 / min h w := by
      intro e he
      have h1 : min h w * 1000 ≤ e * 1000 := Nat.mul_le_mul_right 1000 he
      have h2 : min h w * 1000 / min h w = 1000 :=
        Nat.mul_div_cancel_left 1000 (Nat.lt_of_lt_of_le Nat.zero_lt_one hmin)
      calc 1000 = min h w * 1000 / min h w := h2.symm
        _ ≤ e * 1000 / min h w := Nat.div_le_div_right h1
    exact le_min (hbound h (min_le_left h w)) (hbound w (min_le_right h w))
  · intro hsmall hbig
    refine ⟨by simp [resize_for_ocr, hsmall, hbig], ?_⟩
    have hmaxpos : 0 < max h w := Nat.lt_of_lt_of_le hh (le_max_left h w)
    have hbound : ∀ e : Nat, e ≤ max h w → e * 2000 / max h w ≤ 2000 := by
      intro e he
      have h1 : e * 2000 ≤ max h w * 2000 := Nat.mul_le_mul_right 2000 he
      have h2 : max h w * 2000 / max h w = 2000 :=
        Nat.mul_div_cancel_left 2000 hmaxpos
      calc e * 2000 / max h w ≤ max h w * 2000 / max h w :=
            Nat.div_le_div_right h1
        _ = 2000 := h2
    exact max_le (hbound h (le_max_left h w)) (hbound w (le_max_right h w))
  · intro hsmall hbig
    simp [resize_for_ocr, hsmall, hbig]

/-- Witness for resize_for_ocr_spec at the 500 x 3000 image that is both too
small on the short edge and too large on the long edge: only upscaled. -/
theorem resize_for_ocr_spec_witness :
    resize_for_ocr 500 3000 = (1000, 6000, some Interp.cubic)
    ∧ 1000 ≤ min (500 * 1000 / min 500 3000) (3000 * 1000 / min 500 3000) := by
  obtain ⟨h1, h2⟩ :=
    (resize_for_ocr_spec 500 3000 (by decide) (by decide)).1 (by decide)
  exact ⟨h1.trans (by decide), h2⟩

theorem assess_cholesterol_risk_bands (v : Rat) :
    (assess_cholesterol_risk v = "normal" ↔ v < 200)
    ∧ (assess_cholesterol_risk v = "borderline" ↔ 200 ≤ v ∧ v < 240)
    ∧ (assess_cholesterol_risk v = "high" ↔ 240 ≤ v) := by
  unfold assess_cholesterol_risk
  split_ifs with h1 h2 <;>
    refine ⟨?_, ?_, ?_⟩ <;>
    simp <;>
    first
      | linarith
      | (constructor <;> linarith)
      | (intro hx; linarith)

theorem assess_ldl_risk_bands (v : Rat) :
    (assess_ldl_risk v = "normal" ↔ v < 100)
    ∧ (assess_ldl_risk v = "borderline" ↔ 100 ≤ v ∧ v < 130)
    ∧ (assess_ldl_risk v = "borderline_high" ↔ 130 ≤ v ∧ v < 160)
    ∧ (assess_ldl_risk v = "high" ↔ 160 ≤ v) := by
  unfold assess_ldl_risk
  split_ifs with h1 h2 h3 <;>
    refine ⟨?_, ?_, ?_, ?_⟩ <;>
    simp <;>
    first
      | linarith
      | (constructor <;> linarith)
      | (intro hx; linarith)

theorem assess_hdl_risk_bands (v : Rat) :
    (assess_hdl_risk v = "normal" ↔ 60 ≤ v)
    ∧ (assess_hdl_risk v = "borderline" ↔ 40 ≤ v ∧ v < 60)
    ∧ (assess_hdl_risk v = "high" ↔ v < 40) := by
  unfold assess_hdl_risk
  split_ifs with h1 h2 <;>
    refine ⟨?_, ?_, ?_⟩ <;>
    simp <;>
    first
      | linarith
      | (constructor <;> linarith)
      | (intro hx; linarith)

theorem assess_triglyceride_risk_bands (v : Rat) :
    (assess_triglyceride_risk v = "normal" ↔ v < 150)
    ∧ (assess_triglyceride_risk v = "borderline" ↔ 150 ≤ v ∧ v < 200)
    ∧ (assess_triglyceride_risk v = "high" ↔ 200 ≤ v) := by
  unfold assess_triglyceride_risk
  split_ifs with h1 h2 <;>
    refine ⟨?_, ?_, ?_⟩ <;>
    simp <;>
    first
      | linarith
      | (constructor <;> linarith)
      | (intro hx; linarith)

theorem assess_systolic_bp_risk_bands (v : Rat) :
    (assess_systolic_bp_risk v = "normal" ↔ v < 120)
    ∧ (assess_systolic_bp_risk v = "elevated" ↔ 120 ≤ v ∧ v < 130)
    ∧ (assess_systolic_bp_risk v = "stage1" ↔ 130 ≤ v ∧ v < 140)
    ∧ (assess_systolic_bp_risk v = "high" ↔ 140 ≤ v) := by
  unfold assess_systolic_bp_risk
  split_ifs with h1 h2 h3 <;>
    refine ⟨?_, ?_, ?_, ?_⟩ <;>
    simp <;>
    first
      | linarith
      | (constructor <;> linarith)
      | (intro hx; linarith)

theorem assess_diastolic_bp_risk_bands (v : Rat) :
    (assess_diastolic_bp_risk v = "normal" ↔ v < 80)
    ∧ (assess_diastolic_bp_risk v = "stage1" ↔ 80 ≤ v ∧ v < 90)
    ∧ (assess_diastolic_bp_risk v = "high" ↔ 90 ≤ v) := by
  unfold assess_diastolic_bp_risk
  split_ifs with h1 h2 <;>
    refine ⟨?_, ?_, ?_⟩ <;>
    simp <;>
    first
      | linarith
      | (constructor <;> linarith)
      | (intro hx; linarith)

theorem assess_fasting_glucose_risk_bands (v : Rat) :
    (assess_fasting_glucose_risk v = "normal" ↔ v < 100)
    ∧ (assess_fasting_glucose_risk v = "borderline" ↔ 100 ≤ v ∧ v < 126)
    ∧ (assess_fasting_glucose_risk v = "high" ↔ 126 ≤ v) := by
  unfold assess_fasting_glucose_risk
  split_ifs with h1 h2 <;>
    refine ⟨?_, ?_, ?_⟩ <;>
    simp <;>
    first
      | linarith
      | (constructor <;> linarith)
      | (intro hx; linarith)

theorem assess_hba1c_risk_bands (v : Rat) :
    (assess_hba1c_risk v = "normal" ↔ v < 57/10)
    ∧ (assess_hba1c_risk v = "borderline" ↔ 57/10 ≤ v ∧ v < 65/10)
    ∧ (assess_hba1c_risk v = "high" ↔ 65/10 ≤ v) := by
  unfold assess_hba1c_risk
  split_ifs with h1 h2 <;>
    refine ⟨?_, ?_, ?_⟩ <;>
    simp <;>
    first
      | linarith
      | (constructor <;> linarith)
      | (intro hx; linarith)

theorem assess_waist_risk_bands (v : Rat) :
    (assess_waist_risk v = "normal" ↔ v < 80)
    ∧ (assess_waist_risk v = "borderline" ↔ 80 ≤ v ∧ v < 90)
    ∧ (assess_waist_risk v = "high" ↔ 90 ≤ v) := by
  unfold assess_waist_risk
  split_ifs with h1 h2 <;>
    refine ⟨?_, ?_, ?_⟩ <;>
    simp <;>
    first
      | linarith
      | (constructor <;> linarith)
      | (intro hx; linarith)

/-- C7: every per-metric risk assessment function is a pure total function
implementing exactly the stated cut-points, each band characterized by an
if-and-only-if, so each boundary value lands in the band the tables assign
(for example exactly 200 total cholesterol is borderline, not normal). -/
theorem risk_threshold_tables (v : Rat) :
    ((assess_cholesterol_risk v = "normal" ↔ v < 200)
      ∧ (assess_cholesterol_risk v = "borderline" ↔ 200 ≤ v ∧ v < 240)
      ∧ (assess_cholesterol_risk v = "high" ↔ 240 ≤ v))
    ∧ ((assess_ldl_risk v = "normal" ↔ v < 100)
      ∧ (assess_ldl_risk v = "borderline" ↔ 100 ≤ v ∧ v < 130)
      ∧ (assess_ldl_risk v = "borderline_high" ↔ 130 ≤ v ∧ v < 160)
      ∧ (assess_ldl_risk v = "high" ↔ 160 ≤ v))
    ∧ ((assess_hdl_risk v = "normal" ↔ 60 ≤ v)
      ∧ (assess_hdl_risk v = "borderline" ↔ 40 ≤ v ∧ v < 60)
      ∧ (assess_hdl_risk v = "high" ↔ v < 40))
    ∧ ((assess_triglyceride_risk v = "normal" ↔ v < 150)
      ∧ (assess_triglyceride_risk v = "borderline" ↔ 150 ≤ v ∧ v < 200)
      ∧ (assess_triglyceride_risk v = "high" ↔ 200 ≤ v))
    ∧ ((assess_systolic_bp_risk v = "normal" ↔ v < 120)
      ∧ (assess_systolic_bp_risk v = "elevated" ↔ 120 ≤ v ∧ v < 130)
      ∧ (assess_systolic_bp_risk v = "stage1" ↔ 130 ≤ v ∧ v < 140)
      ∧ (assess_systolic_bp_risk v = "high" ↔ 140 ≤ v))
    ∧ ((assess_diastolic_bp_risk v = "normal" ↔ v < 80)
      ∧ (assess_diastolic_bp_risk v = "stage1" ↔ 80 ≤ v ∧ v < 90)
      ∧ (assess_diastolic_bp_risk v = "high" ↔ 90 ≤ v))
    ∧ ((assess_fasting_glucose_risk v = "normal" ↔ v < 100)
      ∧ (assess_fasting_glucose_risk v = "borderline" ↔ 100 ≤ v ∧ v < 126)
      ∧ (assess_fasting_glucose_risk v = "high" ↔ 126 ≤ v))
    ∧ ((assess_hba1c_risk v = "normal" ↔ v < 57/10)
      ∧ (assess_hba1c_risk v = "borderline" ↔ 57/10 ≤ v ∧ v < 65/10)
      ∧ (assess_hba1c_risk v = "high" ↔ 65/10 ≤ v))
    ∧ ((assess_waist_risk v = "normal" ↔ v < 80)
      ∧ (assess_waist_risk v = "borderline" ↔ 80 ≤ v ∧ v < 90)
      ∧ (assess_waist_risk v = "high" ↔ 90 ≤ v)) :=
  ⟨assess_cholesterol_risk_bands v, assess_ldl_risk_bands v,
   assess_hdl_risk_bands v, assess_triglyceride_risk_bands v,
   assess_systolic_bp_risk_bands v, assess_diastolic_bp_risk_bands v,
   assess_fasting_glucose_risk_bands v, assess_hba1c_risk_bands v,
   assess_waist_risk_bands v⟩

theorem translateChar_ne_of_key (c k : Char)
    (hkey : (translateTable.find? fun p => p.1 = k).isSome)
    (hval : ∀ p ∈ translateTable, p.2 ≠ k) : translateChar c ≠ k := by
  unfold translateChar
  rcases hfind : translateTable.find? (fun p => p.1 = c) with _ | p
  · rw [hfind]
    simp only [Option.map_none', Option.getD_none]
    intro hc
    subst hc
    rw [hfind] at hkey
    simp at hkey
  · have hp : p ∈ translateTable := List.mem_of_find?_eq_some hfind
    rw [hfind]
    simp only [Option.map_some', Option.getD_some]
    exact hval p hp

theorem translateChar_ne_fullwidth_colon (c : Char) : translateChar c ≠ '：' :=
  translateChar_ne_of_key c '：' (by decide) (by decide)

theorem translateChar_ne_fullstop (c : Char) : translateChar c ≠ '。' :=
  translateChar_ne_of_key c '。' (by decide) (by decide)

theorem mem_collapseAux (b : Bool) (cs : List Char) (c : Char)
    (h : c ∈ collapseAux b cs) : c = ' ' ∨ c ∈ cs := by
  induction cs generalizing b with
  | nil => simp [collapseAux] at h
  | cons hd tl ih =>
      by_cases hws : isPyWhitespace hd
      · simp only [collapseAux, hws, if_true] at h
        rcases List.mem_append.mp h with h1 | h2
        · cases b with
          | true => simp at h1
          | false =>
              left
              simpa using h1
        · rcases ih true h2 with h3 | h3
          · exact Or.inl h3
          · exact Or.inr (List.mem_cons_of_mem hd h3)
      · simp only [collapseAux, hws, if_false] at h
        rcases List.mem_cons.mp h with h1 | h2
        · exact Or.inr (h1 ▸ List.mem_cons_self hd tl)
        · rcases ih false h2 with h3 | h3
          · exact Or.inl h3
          · exact Or.inr (List.mem_cons_of_mem hd h3)

theorem collapseAux_ws_eq_space (b : Bool) (cs : List Char) (c : Char)
    (h : c ∈ collapseAux b cs) (hws : isPyWhitespace c = true) : c = ' ' := by
  induction cs generalizing b with
  | nil => simp [collapseAux] at h
  | cons hd tl ih =>
      by_cases hw : isPyWhitespace hd
      · simp only [collapseAux, hw, if_true] at h
        rcases List.mem_append.mp h with h1 | h2
        · cases b with
          | true => simp at h1
          | false => simpa using h1
        · exact ih true h2
      · simp only [collapseAux, hw, if_false] at h
        rcases List.mem_cons.mp h with h1 | h2
        · exact absurd (h1 ▸ hws) (by simp [hw])
        · exact ih false h2

theorem collapseAux_head_not_ws (cs : List Char) (c : Char)
    (h : (collapseAux true cs).head? = some c) : isPyWhitespace c = false := by
  induction cs with
  | nil => simp [collapseAux] at h
  | cons hd tl ih =>
      by_cases hw : isPyWhitespace hd
      · rw [show collapseAux true (hd :: tl) = collapseAux true tl from by
          simp [collapseAux, hw]] at h
        exact ih h
      · rw [show collapseAux true (hd :: tl) = hd :: collapseAux false tl from by
          simp [collapseAux, hw]] at h
        simp only [List.head?_cons, Option.some.injEq] at h
        subst h
        simp [hw]

theorem collapseAux_chain (b : Bool) (cs : List Char) :
    List.Chain'
      (fun a c => ¬(isPyWhitespace a = true ∧ isPyWhitespace c = true))
      (collapseAux b cs) := by
  induction cs generalizing b with
  | nil => simp [collapseAux]
  | cons hd tl ih =>
      by_cases hw : isPyWhitespace hd
      · cases b with
        | true =>
            rw [show collapseAux true (hd :: tl) = collapseAux true tl from by
              simp [collapseAux, hw]]
            exact ih true
        | false =>
            rw [show collapseAux false (hd :: tl) =
                ' ' :: collapseAux true tl from by simp [collapseAux, hw]]
            rw [List.chain'_cons']
            refine ⟨?_, ih true⟩
            intro y hy
            intro hcontra
            have := collapseAux_head_not_ws tl y hy
            rw [this] at hcontra
            exact absurd hcontra.2 (by simp)
      · rw [show collapseAux b (hd :: tl) = hd :: collapseAux false tl from by
          simp [collapseAux, hw]]
        rw [List.chain'_cons']
        refine ⟨?_, ih false⟩
        intro y hy hcontra
        exact absurd hcontra.1 (by simp [hw])

theorem replaceChar_eq_self (cs : List Char) (k : Char) (t : List Char)
    (h : ∀ x ∈ cs, x ≠ k) : replaceChar cs k t = cs := by
  induction cs with
  | nil => rfl
  | cons hd tl ih =>
      have hhd : hd ≠ k := h hd (List.mem_cons_self hd tl)
      simp only [replaceChar, hhd, if_false]
      rw [ih fun x hx => h x (List.mem_cons_of_mem hd hx)]
      rfl

theorem not_mem_collapsed (cs : List Char) (k : Char) (hk : k ≠ ' ')
    (htr : ∀ y : Char, translateChar y ≠ k) :
    ∀ x ∈ collapseWS (cs.map translateChar), x ≠ k := by
  intro x hx
  rcases mem_collapseAux false (cs.map translateChar) x hx with h | h
  · rw [h]
    exact Ne.symm hk
  · rcases List.mem_map.mp h with ⟨y, _, hy⟩
    rw [← hy]
    exact htr y

theorem normalizeChars_eq (cs : List Char) :
    normalizeChars cs = collapseWS (cs.map translateChar) := by
  unfold normalizeChars
  have h1 : ∀ x ∈ collapseWS (cs.map translateChar), x ≠ '：' :=
    not_mem_collapsed cs '：' (by decide) translateChar_ne_fullwidth_colon
  have h2 : ∀ x ∈ collapseWS (cs.map translateChar), x ≠ '。' :=
    not_mem_collapsed cs '。' (by decide) translateChar_ne_fullstop
  rw [replaceChar_eq_self _ _ _ h1, replaceChar_eq_self _ _ _ h2]

/-- C6 (amended): _normalize_text equals the translation table applied
characterwise followed by whitespace-run collapsing; the table folds
full-width digits and punctuation to ASCII, sending the full-width colon to
a colon and the Chinese full stop to an ASCII period (so full stops are
converted, not removed); the two trailing replace calls are no-ops; the
output has no two adjacent whitespace characters, every whitespace character
in it is a plain space, and no full-width colon or full stop survives. -/
theorem normalize_text_spec (cs : List Char) :
    normalizeChars cs = collapseWS (cs.map translateChar)
    ∧ (String.data "０１２３４５６７８９：；，。！？（）【】「」").map translateChar
        = String.data "0123456789:;,.!?()[]「」"
    ∧ List.Chain'
        (fun a c => ¬(isPyWhitespace a = true ∧ isPyWhitespace c = true))
        (normalizeChars cs)
    ∧ (∀ c ∈ normalizeChars cs, isPyWhitespace c = true → c = ' ')
    ∧ '：' ∉ normalizeChars cs
    ∧ '。' ∉ normalizeChars cs := by
  have heq := normalizeChars_eq cs
  refine ⟨heq, by decide, ?_, ?_, ?_, ?_⟩
  · rw [heq]
    exact collapseAux_chain false (cs.map translateChar)
  · intro c hc hws
    rw [heq] at hc
    exact collapseAux_ws_eq_space false (cs.map translateChar) c hc hws
  · intro hmem
    rw [heq] at hmem
    exact not_mem_collapsed cs '：' (by decide)
      translateChar_ne_fullwidth_colon '：' hmem rfl
  · intro hmem
    rw [heq] at hmem
    exact not_mem_collapsed cs '。' (by decide)
      translateChar_ne_fullstop '。' hmem rfl

/-- Witness for normalize_text_spec at a concrete string with a double
space and a full-width digit. -/
theorem normalize_text_spec_witness :
    normalizeChars (String.data "１  b") =
      collapseWS ((String.data "１  b").map translateChar)
    ∧ '。' ∉ normalizeChars (String.data "１  b") :=
  ⟨(normalize_text_spec (String.data "１  b")).1,
   (normalize_text_spec (String.data "１  b")).2.2.2.2.2⟩

/-- C6 counterexample: the Chinese full stop is not stripped; the translate
table has already turned it into an ASCII period before the replace call
that would remove it, so normalizing the three characters A full-stop B
yields A period B, not AB. -/
theorem normalize_text_fullstop_cex :
    normalize_text "A。B" = "A.B" ∧ normalize_text "A。B" ≠ "AB" := by
  constructor <;> decide

/-- C4 (code bug): the ROC date parses correctly, but the ROC pattern also
matches the last three year digits of a Gregorian CJK date (024 inside
2024), converts 24 as an ROC year and returns 1935-11-15 where the spec,
the source comment naming the second pattern for such dates, and the
repository unit test test_extract_date_chinese_format all require
2024-11-15. -/
theorem extract_test_date_roc_shadows_gregorian :
    extract_test_date ["113年11月15日"] = Except.ok (some "2024-11-15")
    ∧ extract_test_date ["2024年11月15日"] = Except.ok (some "1935-11-15")
    ∧ ("1935-11-15" : String) ≠ "2024-11-15" := by
  refine ⟨by rfl, by rfl, by decide⟩

/-- C5 (amended): the fallback branch runs iff the caller switch is on and
the OCR completeness is below the threshold; when it does not run the OCR
result is final with source ocr; because extract never raises (it returns
an empty dict on failure), the llm outcome reaching parse is always a
returned dict, the merge path always executes when the branch runs and the
source is hybrid even when the fallback contributed nothing; an exception
in the branch would be caught, keeping the OCR result with source ocr, so
fallback failure is never fatal. -/
theorem parse_fallback_spec (ocr : Dict) (useF : Bool) (thr : Rat)
    (inner : Except String Dict) :
    (¬(useF = true ∧ check_completeness ocr < thr) →
      parse_fallback_stage ocr useF thr (Except.ok (gemini_extract inner)) =
        (ocr, check_completeness ocr, "ocr"))
    ∧ ((useF = true ∧ check_completeness ocr < thr) →
      parse_fallback_stage ocr useF thr (Except.ok (gemini_extract inner)) =
        (merge_data ocr (gemini_extract inner),
         check_completeness (merge_data ocr (gemini_extract inner)),
         "hybrid"))
    ∧ (∀ e : String,
        parse_fallback_stage ocr useF thr (Except.error e) =
          (ocr, check_completeness ocr, "ocr")) := by
  refine ⟨?_, ?_, ?_⟩
  · intro h
    simp only [parse_fallback_stage]
    rw [if_neg h]
  · intro h
    simp only [parse_fallback_stage]
    rw [if_pos h]
  · intro e
    simp only [parse_fallback_stage]
    by_cases h : useF = true ∧ check_completeness ocr < thr
    · rw [if_pos h]
    · rw [if_neg h]

/-- Witness for parse_fallback_spec: empty OCR data below the default
threshold with an LLM result, yielding the hybrid merge. -/
theorem parse_fallback_spec_witness :
    (true = true ∧ check_completeness [] < mkRat 7 10)
    ∧ parse_fallback_stage [] true (mkRat 7 10)
        (Except.ok (gemini_extract
          (Except.ok [("glucose", PyVal.vStr "100")]))) =
      (merge_data []
        (gemini_extract (Except.ok [("glucose", PyVal.vStr "100")])),
       check_completeness (merge_data []
        (gemini_extract (Except.ok [("glucose", PyVal.vStr "100")]))),
       "hybrid") :=
  ⟨⟨rfl, by decide⟩,
   (parse_fallback_spec [] true (mkRat 7 10)
     (Except.ok [("glucose", PyVal.vStr "100")])).2.1 ⟨rfl, by decide⟩⟩

/-- C5 counterexample: the fallback is attempted and returns nothing useful
(the inner LLM call fails, extract swallows the exception and returns the
empty dict), yet the parse reports source hybrid, not ocr as claimed. -/
theorem parse_fallback_hybrid_on_useless_cex :
    parse_fallback_stage [] true (mkRat 7 10)
        (Except.ok (gemini_extract (Except.error "api error"))) =
      ([], 0, "hybrid")
    ∧ ("hybrid" : String) ≠ "ocr" :=
  ⟨rfl, by decide⟩

theorem retryLoop_ok_spec (f : Nat → Dict) (maxR : Nat) :
    ∀ (rem attempt : Nat) (sleeps : List Nat),
      ((retryLoop (fun i => Except.ok (f i)) maxR attempt rem sleeps).2.1 =
        sleeps)
      ∧ ((∀ i, attempt ≤ i → i < attempt + rem → f i = []) →
          retryLoop (fun i => Except.ok (f i)) maxR attempt rem sleeps =
            ([], sleeps, attempt + rem))
      ∧ (∀ k, attempt ≤ k → k < attempt + rem → f k ≠ [] →
          (∀ j, attempt ≤ j → j < k → f j = []) →
          retryLoop (fun i => Except.ok (f i)) maxR attempt rem sleeps =
            (f k, sleeps, k + 1)) := by
  intro rem
  induction rem with
  | zero =>
      intro attempt sleeps
      refine ⟨rfl, fun _ => by simp [retryLoop], ?_⟩
      intro k h1 h2 h3 h4
      omega
  | succ n ih =>
      intro attempt sleeps
      by_cases hf : f attempt = []
      · have hstep :
            retryLoop (fun i => Except.ok (f i)) maxR attempt (n + 1) sleeps =
              retryLoop (fun i => Except.ok (f i)) maxR (attempt + 1) n
                sleeps := by
          simp [retryLoop, hf]
        obtain ⟨ih1, ih2, ih3⟩ := ih (attempt + 1) sleeps
        refine ⟨by rw [hstep]; exact ih1, ?_, ?_⟩
        · intro hall
          rw [hstep]
          rw [ih2 fun i hi1 hi2 => hall i (by omega) (by omega)]
          have : attempt + 1 + n = attempt + (n + 1) := by omega
          rw [this]
        · intro k hk1 hk2 hk3 hk4
          have hkne : k ≠ attempt := fun hc => hk3 (hc ▸ hf)
          rw [hstep]
          exact ih3 k (by omega) (by omega) hk3
            fun j hj1 hj2 => hk4 j (by omega) hj2
      · have hstep :
            retryLoop (fun i => Except.ok (f i)) maxR attempt (n + 1) sleeps =
              (f attempt, sleeps, attempt + 1) := by
          simp [retryLoop, hf]
        refine ⟨by rw [hstep], ?_, ?_⟩
        · intro hall
          exact absurd (hall attempt (by omega) (by omega)) hf
        · intro k hk1 hk2 hk3 hk4
          have hkeq : k = attempt := by
            by_contra hne
            exact hf (hk4 attempt (by omega) (by omega))
          rw [hstep, hkeq]

/-- C8 (amended): extract never raises (an empty dict is returned on any
failure), and extract_with_retry therefore runs its attempts back to back
with no backoff sleeps at all (the sleep sits in the except branch, which
the never-raising extract cannot reach); it makes at most max_retries
attempts, returns as soon as an attempt yields a non-empty dict, and
returns an empty dict after exhausting all attempts. -/
theorem extract_with_retry_spec (inner : Nat → Except String Dict)
    (max_retries : Nat) :
    ((extract_with_retry (fun i => Except.ok (gemini_extract (inner i)))
        max_retries).2.1 = [])
    ∧ ((∀ i, i < max_retries → gemini_extract (inner i) = []) →
        extract_with_retry (fun i => Except.ok (gemini_extract (inner i)))
          max_retries = ([], [], max_retries))
    ∧ (∀ k, k < max_retries → gemini_extract (inner k) ≠ [] →
        (∀ j, j < k → gemini_extract (inner j) = []) →
        extract_with_retry (fun i => Except.ok (gemini_extract (inner i)))
          max_retries = (gemini_extract (inner k), [], k + 1)) := by
  obtain ⟨h1, h2, h3⟩ :=
    retryLoop_ok_spec (fun i => gemini_extract (inner i)) max_retries
      max_retries 0 []
  refine ⟨h1, ?_, ?_⟩
  · intro hall
    have := h2 fun i hi1 hi2 => hall i (by omega)
    simpa [extract_with_retry] using this
  · intro k hk1 hk2 hk3
    have := h3 k (by omega) (by omega) hk2 fun j hj1 hj2 => hk3 j hj2
    simpa [extract_with_retry] using this

/-- Witness for extract_with_retry_spec: three attempts whose inner calls
all raise; every attempt returns the empty dict and the retry returns the
empty dict after three attempts with no sleeps. -/
theorem extract_with_retry_spec_witness :
    extract_with_retry
      (fun i => Except.ok (gemini_extract ((fun _ => Except.error "x") i)))
      3 = ([], [], 3) :=
  (extract_with_retry_spec (fun _ => Except.error "x") 3).2.1 fun _ _ => rfl

/-- C8 counterexample: with three attempts whose inner calls all fail, the
claimed backoff schedule between attempts would be one second then two
seconds, but the executed sleeps list is empty: since extract returns an
empty dict instead of raising, the except branch holding the sleep is
unreachable and the attempts run back to back. -/
theorem extract_with_retry_no_backoff_cex :
    (extract_with_retry
      (fun _ => Except.ok (gemini_extract (Except.error "api"))) 3).2.1 = []
    ∧ ([] : List Nat) ≠ [1, 2] :=
  ⟨rfl, by decide⟩

theorem batch_fold_filter (rs : List ParseOutcome) : ∀ acc : Dict,
    rs.foldl
      (fun merged r =>
        if envData r ≠ [] then merge_data merged (envData r) else merged)
      acc =
      ((rs.map envData).filter fun d => d ≠ []).foldl merge_data acc := by
  induction rs with
  | nil => intro acc; rfl
  | cons r tl ih =>
      intro acc
      simp only [List.foldl_cons, List.map_cons]
      by_cases h : envData r = []
      · rw [if_neg (by simp [h]), List.filter_cons_of_neg (by simp [h])]
        exact ih acc
      · rw [if_pos (by simp [h]), List.filter_cons_of_pos (by simp [h]),
          List.foldl_cons]
        exact ih (merge_data acc (envData r))

/-- C9 (amended): a failed file contributes nothing and its failure does
not abort the batch (removing a failure entry anywhere leaves the batch
aggregate unchanged); the merged dict is the fold of the non-empty per-file
data dicts through the merge in input order; the overall completeness is
recomputed on the merged dict; when every file fails the batch aggregate is
the empty dict with completeness zero, with no distinct batch-level failure
marker. -/
theorem parse_batch_spec :
    (∀ (xs ys : List ParseOutcome) (e : String),
      parse_batch (xs ++ ParseOutcome.failure e :: ys) =
        parse_batch (xs ++ ys))
    ∧ (∀ results : List ParseOutcome,
        (parse_batch results).1 =
          ((results.map envData).filter fun d => d ≠ []).foldl merge_data [])
    ∧ (∀ results : List ParseOutcome,
        (parse_batch results).2 = check_completeness (parse_batch results).1)
    ∧ (∀ results : List ParseOutcome, (∀ r ∈ results, envData r = []) →
        parse_batch results = ([], 0)) := by
  have hmergefold : ∀ (xs ys : List ParseOutcome) (e : String),
      parse_batch_merge (xs ++ ParseOutcome.failure e :: ys) =
        parse_batch_merge (xs ++ ys) := by
    intro xs ys e
    simp only [parse_batch_merge, List.foldl_append, List.foldl_cons]
    simp [envData]
  refine ⟨?_, ?_, ?_, ?_⟩
  · intro xs ys e
    simp only [parse_batch]
    rw [hmergefold xs ys e]
  · intro results
    simp only [parse_batch]
    exact batch_fold_filter results []
  · intro results
    rfl
  · intro results hall
    have hmerge : parse_batch_merge results = [] := by
      rw [show parse_batch_merge results =
          results.foldl
            (fun merged r =>
              if envData r ≠ [] then merge_data merged (envData r)
              else merged) [] from rfl]
      rw [batch_fold_filter results []]
      have hfil : (results.map envData).filter (fun d => d ≠ []) = [] := by
        rw [List.filter_eq_nil_iff]
        intro d hd
        rcases List.mem_map.mp hd with ⟨r, hr, hdr⟩
        simp [← hdr, hall r hr]
      rw [hfil]
      rfl
    simp only [parse_batch, hmerge]
    exact rfl

/-- Witness for parse_batch_spec: a failure entry after a successful file
leaves the batch aggregate equal to that of the successful file alone. -/
theorem parse_batch_spec_witness :
    parse_batch
      [ParseOutcome.success [("bmi", PyVal.vStr "22.5")],
       ParseOutcome.failure "boom"] =
      parse_batch [ParseOutcome.success [("bmi", PyVal.vStr "22.5")]] :=
  parse_batch_spec.1 [ParseOutcome.success [("bmi", PyVal.vStr "22.5")]] []
    "boom"

/-- C9 counterexample: a batch in which every file fails returns the empty
merged dict with overall completeness zero, exactly the aggregate of a
batch whose single file succeeded with empty data: no distinct aggregate
failure is reported at the batch level. -/
theorem parse_batch_no_aggregate_failure_cex :
    parse_batch [ParseOutcome.failure "boom"] = ([], 0)
    ∧ parse_batch [ParseOutcome.failure "boom"] =
        parse_batch [ParseOutcome.success []] :=
  ⟨rfl, rfl⟩
